import Mathlib

/-!
Verification development for the Streamer-Sales repository.

The subject is the streaming autoregressive decode loop
`generate_interactive` and the prompt assembler `combine_history` in
`src/web/pages/selling_page.py`.  The Python code is shallowly embedded:

* token ids are `Nat`; token sequences are `List Nat`;
* next-token scores (the logits after the `logits_processor` /
  `logits_warper` pipeline at line 144-145) are `List ℚ`; the model forward
  computation, the processor pipeline and the warper are collapsed into one
  deterministic function `model : List Nat → List ℚ` (batch size 1, as in
  every call site of the script);
* `torch.multinomial` (line 150) draws randomness that is outside the
  program text; it is modelled by an oracle `multinomialDraw` giving the
  sampled token for the current sequence;
* `torch.argmax(probs)` (line 152) is applied to
  `probs = softmax(next_token_scores)`; `softmax` maps every component by
  `x ↦ exp x / Z` with `Z > 0` fixed for the vector, a strictly monotone
  map, so the arg-max over `probs` coincides, ties included, with the
  arg-max over the scores themselves (theorem `argmaxIdx_map_strictMono`
  below); the embedding therefore applies the arg-max directly to the
  scores.  Per the documented semantics of `torch.argmax` / `torch.max`,
  the index of the first (lowest) maximal value is returned;
* the unbounded `while True:` loop (lines 131-170) is embedded as a
  fuel-indexed recursion `runLoop`; running out of fuel is a distinct
  status `fuelOut`, and termination theorems show the needed fuel;
* Python exceptions become explicit values: `Except PyExc` for the
  configuration prelude and `combine_history`, and the `Option` result of
  `emitResponse` models the possible `IndexError` of the eos-stripping
  loop (`output_token_ids[-1]` on an empty list, lines 161-163);
* `stopping_criteria` is the list built by transformers'
  `model._get_stopping_criteria(generation_config, stopping_criteria)`
  (line 126): the caller-registered criteria plus a
  `MaxLengthCriteria(generation_config.max_length)`; the list is satisfied
  when any member is (logical OR).  The caller-registered part is the
  abstract `customStop`; the max-length member is explicit in
  `stoppingCriteria` below.
-/

namespace StreamerSales

/-- Python exception kinds appearing in the embedded fragments.
`typeError` is the `TypeError` Python raises at line 105 when
`input_ids_seq_length >= generation_config.max_length` compares an `int`
with `None`; `runtimeError` is the bare `raise RuntimeError` of
`combine_history` (line 249); `configurationError` exists only in the
spec's error taxonomy (§7) — the source defines no such class — and is
included solely so that the spec's claim about it can be stated and
compared with what the code does. -/
inductive PyExc where
  | typeError
  | runtimeError
  | configurationError
deriving DecidableEq, Repr

/-- Environment of one `generate_interactive` run: the external
collaborators and the sampling switches that stay fixed for the run.
`model` returns the transformed next-token scores for the current
sequence (model forward + logits processors + warper, lines 132-145);
`decode` is `tokenizer.decode` (line 164); `eos_token_id` is the list
built at lines 73-80 (config eos ids plus `additional_eos_token_id`),
nonempty at every call site of the script; `do_sample` comes from the
generation config (line 149); `multinomialDraw` is the randomness oracle
behind `torch.multinomial` (line 150); `customStop` is the disjunction of
the caller-registered stopping criteria (line 126), evaluated on the full
token sequence. -/
structure DecodeEnv where
  model : List Nat → List ℚ
  decode : List Nat → String
  eos_token_id : List Nat
  do_sample : Bool
  multinomialDraw : List Nat → Nat
  customStop : List Nat → Bool

/-- Index of the first maximal element of a score list (0 on the empty
list, which the vocabulary never is).  This is the documented semantics of
`torch.argmax` at line 152: the index of the first occurrence of the
maximal value. -/
def argmaxIdx (l : List ℚ) : Nat :=
  l.findIdx (fun x => l.all (fun y => decide (y ≤ x)))

/-- Token selection, lines 148-152: stochastic draw from the softmax
distribution when `do_sample`, else arg-max of the (softmax of the)
scores; softmax is strictly monotone so the arg-max is taken over the
scores directly (see `argmaxIdx_map_strictMono`). -/
def selectToken (env : DecodeEnv) (seq : List Nat) : Nat :=
  if env.do_sample then env.multinomialDraw seq else argmaxIdx (env.model seq)

/-- The eos-stripping loop of lines 161-163, verbatim: for each configured
eos id in order, the last element of the current list is read
(`output_token_ids[-1]` — an `IndexError`, modelled as `none`, when the
list is empty) and dropped when it equals that id. -/
def stripTrailing : List Nat → List Nat → Option (List Nat)
  | [], out => some out
  | e :: rest, out =>
      match out.getLast? with
      | none => none
      | some last => stripTrailing rest (if last = e then out.dropLast else out)

/-- Modelled from the spec: §4.4 step 6 — "take the newly generated
suffix, strip a single trailing end-of-sequence token if present".  The
source instead runs the iterated loop `stripTrailing`; this definition is
the spec's wording, used to compare the two. -/
def stripOneTrailingEos (eosL : List Nat) (out : List Nat) : List Nat :=
  match out.getLast? with
  | none => out
  | some a => if eosL.contains a then out.dropLast else out

/-- Emission of one step, lines 159-166: slice the generated suffix
(`output_token_ids[input_length:]`), run the stripping loop, decode.
`none` models the `IndexError` escape of the stripping loop. -/
def emitResponse (env : DecodeEnv) (promptLen : Nat) (seq : List Nat) : Option String :=
  (stripTrailing env.eos_token_id (seq.drop promptLen)).map env.decode

/-- The stopping-criteria list call of line 169:
`stopping_criteria(input_ids, scores)` is the OR of the caller-registered
criteria and the `MaxLengthCriteria(max_length)` that transformers'
`_get_stopping_criteria` adds (line 126); `MaxLengthCriteria` fires when
the total sequence length reaches `max_length`. -/
def stoppingCriteria (env : DecodeEnv) (maxLen : Nat) (seq : List Nat) : Bool :=
  env.customStop seq || decide (maxLen ≤ seq.length)

/-- How one `generate_interactive` run ended: `stopped` through the
`break` at line 170, `crashed` through the `IndexError` of the stripping
loop, `fuelOut` when the fuel of the embedding ran out before either. -/
inductive RunStatus where
  | stopped
  | crashed
  | fuelOut
deriving DecidableEq, Repr

/-- Observable outcome of a run: the texts yielded (line 166) in order,
the final token sequence, the number of executed loop iterations, and how
the run ended. -/
structure RunResult where
  emissions : List String
  seq : List Nat
  steps : Nat
  status : RunStatus
deriving DecidableEq, Repr

/-- The `while True:` body of lines 131-170, one constructor case per
iteration: select the next token, append it, update the `unfinished` flag
(line 157: `unfinished * min(next != i for i in eos_token_id)`, i.e. AND
of the flag with "the token is no eos id"), compute and yield the
emission, then `break` when the flag is cleared or the stopping criteria
fire — checked only after the yield. -/
def runLoop (env : DecodeEnv) (maxLen promptLen : Nat) :
    Nat → List Nat → Bool → RunResult
  | 0, seq, _ => ⟨[], seq, 0, .fuelOut⟩
  | fuel + 1, seq, unfinished =>
      let next := selectToken env seq
      let seq2 := seq ++ [next]
      let unfinished2 := unfinished && !(env.eos_token_id.contains next)
      match emitResponse env promptLen seq2 with
      | none => ⟨[], seq2, 1, .crashed⟩
      | some resp =>
          if !unfinished2 || stoppingCriteria env maxLen seq2 then
            ⟨[resp], seq2, 1, .stopped⟩
          else
            let r := runLoop env maxLen promptLen fuel seq2 unfinished2
            ⟨resp :: r.emissions, r.seq, r.steps + 1, r.status⟩

/-- One decode run from a prompt: `input_length` is the prompt length
(line 64), the sequence starts as the prompt's token ids and the
`unfinished` flag starts at 1 (line 129). -/
def run (env : DecodeEnv) (maxLen : Nat) (prompt : List Nat) (fuel : Nat) : RunResult :=
  runLoop env maxLen prompt.length fuel prompt true

/-- Outcome of the max-length resolution of lines 81-103. `max_length` is
the resolved `generation_config.max_length`; `deprecationWarned` records
the `warnings.warn` of lines 83-91; `bothSetDiag` records the
`logger.warn` of lines 95-103. -/
structure ResolveResult where
  max_length : Option Nat
  deprecationWarned : Bool
  bothSetDiag : Bool
deriving DecidableEq, Repr

/-- Lines 72-103 of `generate_interactive`: `generation_config.update(**kwargs)`
overwrites `max_length` with the kwargs value when the key is present
(`kwargsML`), `has_default_max_length` is "`max_length` absent from kwargs
and present on the config", and `max_new_tokens` (`mnt`, its post-update
value) when set rebinds `max_length := max_new_tokens + input_ids_seq_length`,
logging the both-set diagnostic when `max_length` was in kwargs. -/
def resolveMaxLength (kwargsML cfgML0 mnt : Option Nat) (promptLen : Nat) :
    ResolveResult :=
  let cfgML1 := match kwargsML with
    | some v => some v
    | none => cfgML0
  let hasDefault := kwargsML.isNone && cfgML1.isSome
  match mnt with
  | none => ⟨cfgML1, hasDefault, false⟩
  | some m => ⟨some (m + promptLen), false, !hasDefault⟩

/-- Resolution followed by the pre-loop length check of line 105:
`input_ids_seq_length >= generation_config.max_length` raises a Python
`TypeError` when the resolved `max_length` is still `None` (an `int`
compared with `None`); when it is set the check only logs a non-fatal
warning and the run proceeds. -/
def resolveAndCheck (kwargsML cfgML0 mnt : Option Nat) (promptLen : Nat) :
    Except PyExc Nat :=
  match (resolveMaxLength kwargsML cfgML0 mnt promptLen).max_length with
  | none => .error .typeError
  | some ml => .ok ml

/-- Whole body of `generate_interactive`: the configuration prelude
(lines 63-127) resolves `max_length` — failing before any model forward
computation when it cannot — and then the decode loop runs with the
resolved value feeding the `MaxLengthCriteria`. -/
def generate_interactive (env : DecodeEnv) (kwargsML cfgML0 mnt : Option Nat)
    (prompt : List Nat) (fuel : Nat) : Except PyExc RunResult :=
  match resolveAndCheck kwargsML cfgML0 mnt prompt.length with
  | .error e => .error e
  | .ok ml => .ok (runLoop env ml prompt.length fuel prompt true)

/-- One entry of `st.session_state.messages` as `combine_history` reads
it: a role string and a content string. -/
structure ChatMessage where
  role : String
  content : String
deriving DecidableEq, Repr

/-- Template `user_prompt` of line 232. -/
def user_prompt (u : String) : String :=
  "<|im_start|>user\n" ++ u ++ "<|im_end|>\n"

/-- Template `robot_prompt` of line 233. -/
def robot_prompt (r : String) : String :=
  "<|im_start|>assistant\n" ++ r ++ "<|im_end|>\n"

/-- Template `cur_query_prompt` of lines 234-235; the backslash line
continuation inside the Python string keeps the four spaces of the
continued line in the literal. -/
def cur_query_prompt (u : String) : String :=
  "<|im_start|>user\n" ++ u ++ "<|im_end|>\n    <|im_start|>assistant\n"

/-- System header built at line 240. -/
def system_header (meta : String) : String :=
  "<s><|im_start|>system\n" ++ meta ++ "<|im_end|>\n"

/-- The `for message in messages:` loop of lines 242-250: append the
templated block for each message to the accumulator, raising
`RuntimeError` at the first message whose role is neither "user" nor
"robot". -/
def combineGo : List ChatMessage → String → Except PyExc String
  | [], acc => .ok acc
  | msg :: rest, acc =>
      if msg.role = "user" then combineGo rest (acc ++ user_prompt msg.content)
      else if msg.role = "robot" then combineGo rest (acc ++ robot_prompt msg.content)
      else .error .runtimeError

/-- `combine_history` of lines 238-252: system header, one templated
block per history message (when `with_history`), then the current-query
template. -/
def combine_history (messages : List ChatMessage) (prompt meta : String)
    (with_history : Bool := true) : Except PyExc String :=
  match (if with_history then combineGo messages (system_header meta)
         else .ok (system_header meta)) with
  | .error e => .error e
  | .ok t => .ok (t ++ cur_query_prompt prompt)

/-- Templated block contributed by one history message with a valid role
(used to state what `combine_history` totalizes to). -/
def messageBlock (msg : ChatMessage) : String :=
  if msg.role = "user" then user_prompt msg.content else robot_prompt msg.content

/-! Concrete environments used to evaluate the embedding on explicit
inputs.  Each mirrors a reachable configuration of the script: a
deterministic greedy model (`do_sample = false`), a decode function, and
an eos list as built at lines 73-80 (`[model eos, additional]` when
`additional_eos_token_id` is passed, as `get_response` always does with
`92542`). -/

/-- Environment whose greedy model immediately emits token `2`, the first
of the two configured eos ids. -/
def envC2 : DecodeEnv where
  model := fun _ => [0, 0, 1]
  decode := fun _ => "x"
  eos_token_id := [2, 92542]
  do_sample := false
  multinomialDraw := fun _ => 0
  customStop := fun _ => false

/-- Environment identical in structure to `envC2`, used for the stop-claim
evaluation. -/
def envC3x : DecodeEnv where
  model := fun _ => [0, 0, 1]
  decode := fun _ => ""
  eos_token_id := [2, 92542]
  do_sample := false
  multinomialDraw := fun _ => 0
  customStop := fun _ => false

/-- Environment whose greedy model emits token `5`, the sole eos id, so
the stripping loop empties the suffix and then terminates cleanly. -/
def envC3w : DecodeEnv where
  model := fun _ => [0, 0, 0, 0, 0, 1]
  decode := fun _ => "ok"
  eos_token_id := [5]
  do_sample := false
  multinomialDraw := fun _ => 0
  customStop := fun _ => false

/-- Environment that never produces an eos id. -/
def envC4x : DecodeEnv where
  model := fun _ => [1]
  decode := fun _ => ""
  eos_token_id := [5]
  do_sample := false
  multinomialDraw := fun _ => 0
  customStop := fun _ => false

/-- Environment that never produces an eos id, for the termination
witness. -/
def envC4w : DecodeEnv where
  model := fun _ => [1]
  decode := fun _ => ""
  eos_token_id := [5]
  do_sample := false
  multinomialDraw := fun _ => 0
  customStop := fun _ => false

/-- Minimal environment for the configuration-failure evaluation; its
pieces are never reached because the prelude fails first. -/
def envC5x : DecodeEnv where
  model := fun _ => []
  decode := fun _ => ""
  eos_token_id := []
  do_sample := false
  multinomialDraw := fun _ => 0
  customStop := fun _ => false

/-- Environment with a tied score vector: indices 1 and 2 share the
maximal score 3. -/
def envC6w : DecodeEnv where
  model := fun _ => [1, 3, 3, 0]
  decode := fun _ => ""
  eos_token_id := [5]
  do_sample := false
  multinomialDraw := fun _ => 0
  customStop := fun _ => false

/-- First of two environments differing only in the sampling oracle. -/
def envC7a : DecodeEnv where
  model := fun _ => [1, 2]
  decode := fun _ => "s"
  eos_token_id := [1]
  do_sample := false
  multinomialDraw := fun _ => 0
  customStop := fun _ => false

/-- Second of two environments differing only in the sampling oracle. -/
def envC7b : DecodeEnv where
  model := fun _ => [1, 2]
  decode := fun _ => "s"
  eos_token_id := [1]
  do_sample := false
  multinomialDraw := fun _ => 99
  customStop := fun _ => false

/-- Environment whose decode shrinks as the token list grows: a
deterministic, well-typed tokenizer stand-in that violates no interface
requirement of §6 yet is not extension-monotone. -/
def envC8x : DecodeEnv where
  model := fun _ => [1]
  decode := fun l => if l.length = 1 then "aa" else "b"
  eos_token_id := [5]
  do_sample := false
  multinomialDraw := fun _ => 0
  customStop := fun _ => false

/-- Environment with the constant-empty decode, which is trivially
extension-monotone. -/
def envC8w : DecodeEnv where
  model := fun _ => [1]
  decode := fun _ => ""
  eos_token_id := [5]
  do_sample := false
  multinomialDraw := fun _ => 0
  customStop := fun _ => false

/-- Environment whose greedy model emits token `0`, the first of two eos
ids, at the very first step. -/
def envC9x : DecodeEnv where
  model := fun _ => [3]
  decode := fun _ => ""
  eos_token_id := [0, 7]
  do_sample := false
  multinomialDraw := fun _ => 0
  customStop := fun _ => false

/-- Environment whose external stopping predicate is constantly true, so
any stop check would fire immediately — yet the first step still runs. -/
def envC9w : DecodeEnv where
  model := fun _ => [2]
  decode := fun _ => ""
  eos_token_id := [5]
  do_sample := false
  multinomialDraw := fun _ => 0
  customStop := fun _ => true

/-- Plain environment for the resolution claim, whose decode loop is
irrelevant to the statement. -/
def envC1w : DecodeEnv where
  model := fun _ => [1]
  decode := fun _ => ""
  eos_token_id := [5]
  do_sample := false
  multinomialDraw := fun _ => 0
  customStop := fun _ => false

/-! Supporting lemmas about `argmaxIdx`. -/

/-- Every nonempty score list has a maximal element. -/
theorem exists_max_mem (l : List ℚ) (h : l ≠ []) : ∃ x ∈ l, ∀ y ∈ l, y ≤ x := by
  induction l with
  | nil => exact absurd rfl h
  | cons a t ih =>
    cases t with
    | nil =>
      refine ⟨a, List.mem_singleton_self a, ?_⟩
      intro y hy
      rw [List.mem_singleton] at hy
      exact hy.le
    | cons b u =>
      obtain ⟨m, hm, hmax⟩ := ih (by simp)
      by_cases hc : a ≤ m
      · refine ⟨m, List.mem_cons_of_mem _ hm, ?_⟩
        intro y hy
        rcases List.mem_cons.mp hy with h' | h'
        · exact h' ▸ hc
        · exact hmax y h'
      · push_neg at hc
        refine ⟨a, List.mem_cons_self _ _, ?_⟩
        intro y hy
        rcases List.mem_cons.mp hy with h' | h'
        · exact h'.le
        · exact (hmax y h').trans hc.le

/-- The predicate inside `argmaxIdx`, characterised. -/
theorem argmax_pred_iff (l : List ℚ) (x : ℚ) :
    (l.all fun y => decide (y ≤ x)) = true ↔ ∀ y ∈ l, y ≤ x := by
  simp [List.all_eq_true]

/-- The index returned by `argmaxIdx` on a nonempty list is in range, its
entry is maximal, and it is the least index among those attaining the
maximum (first occurrence, as `torch.argmax` documents). -/
theorem argmaxIdx_first_max (l : List ℚ) (h : l ≠ []) :
    ∃ hlt : argmaxIdx l < l.length,
      (∀ j (hj : j < l.length), l.get ⟨j, hj⟩ ≤ l.get ⟨argmaxIdx l, hlt⟩) ∧
      (∀ j (hj : j < l.length), l.get ⟨argmaxIdx l, hlt⟩ ≤ l.get ⟨j, hj⟩ →
        argmaxIdx l ≤ j) := by
  obtain ⟨x, hx, hmax⟩ := exists_max_mem l h
  have hex : ∃ y ∈ l, (l.all fun z => decide (z ≤ y)) = true :=
    ⟨x, hx, (argmax_pred_iff l x).mpr hmax⟩
  have hlt : argmaxIdx l < l.length := List.findIdx_lt_length_of_exists hex
  refine ⟨hlt, ?_, ?_⟩
  · intro j hj
    have hp : (l.all fun z => decide (z ≤ l[argmaxIdx l])) = true :=
      List.findIdx_getElem (w := hlt)
    have := (argmax_pred_iff l _).mp hp
    simpa using this (l.get ⟨j, hj⟩) (l.get_mem _ _)
  · intro j hj hle
    by_contra hjlt
    push_neg at hjlt
    have hfail : (l.all fun z => decide (z ≤ l[j])) = false :=
      List.not_of_lt_findIdx hjlt
    have : ¬ ∀ y ∈ l, y ≤ l.get ⟨j, hj⟩ := by
      intro hall
      rw [← argmax_pred_iff l _] at hall
      simp only [List.get_eq_getElem] at hall
      rw [hall] at hfail
      exact Bool.true_eq_false.mp hfail
    apply this
    intro y hy
    have hp : (l.all fun z => decide (z ≤ l[argmaxIdx l])) = true :=
      List.findIdx_getElem (w := hlt)
    have hmax' := (argmax_pred_iff l _).mp hp
    exact (hmax' y hy).trans hle

/-- Auxiliary: `findIdx` commutes with `map` for pointwise-matching
predicates. -/
theorem findIdx_map_of_pred (φ : ℚ → ℚ) (p q : ℚ → Bool)
    (hpq : ∀ a, q (φ a) = p a) :
    ∀ l : List ℚ, (l.map φ).findIdx q = l.findIdx p := by
  intro l
  induction l with
  | nil => rfl
  | cons a t ih =>
    rw [List.map_cons, List.findIdx_cons, List.findIdx_cons, hpq a, ih]

/-- Mapping the score list by a strictly monotone function — such as each
component of `softmax`, `x ↦ exp x / Z` with `Z > 0` — does not move the
arg-max index.  This is why the embedding applies `argmaxIdx` directly to
the transformed scores in place of `torch.argmax(softmax(scores))` at
lines 148-152. -/
theorem argmaxIdx_map_strictMono (φ : ℚ → ℚ) (hφ : StrictMono φ) (l : List ℚ) :
    argmaxIdx (l.map φ) = argmaxIdx l := by
  unfold argmaxIdx
  apply findIdx_map_of_pred
  intro a
  rw [List.all_map]
  congr 1
  funext y
  simp only [Function.comp_apply]
  exact decide_eq_decide.mpr hφ.le_iff_le

/-! Supporting lemmas about the eos-stripping loop. -/

/-- When the last element of the sliced suffix is not a configured eos id,
the stripping loop of lines 161-163 leaves the list untouched. -/
theorem stripTrailing_of_last_not_eos (eosL : List Nat) :
    ∀ (out : List Nat) (a : Nat), out.getLast? = some a →
      eosL.contains a = false → stripTrailing eosL out = some out := by
  induction eosL with
  | nil => intro out a _ _; rfl
  | cons e rest ih =>
    intro out a hl hc
    rw [List.contains_cons, Bool.or_eq_false_iff] at hc
    have hne : a ≠ e := by simpa using hc.1
    simp only [stripTrailing, hl]
    rw [if_neg hne]
    exact ih out a hl hc.2

/-- Stripping a suffix `l ++ [x]` whose proper part `l` contains no eos
id: the loop either keeps the list, or drops exactly the final `x`, or —
only when `l` is empty, so dropping `x` empties the list while ids remain
to check — escapes with the `IndexError` of `output_token_ids[-1]`. -/
theorem stripTrailing_clean_concat (eosL : List Nat) :
    ∀ (l : List Nat) (x : Nat), (∀ a ∈ l, eosL.contains a = false) →
      stripTrailing eosL (l ++ [x]) = some (l ++ [x]) ∨
      stripTrailing eosL (l ++ [x]) = some l ∨
      (l = [] ∧ stripTrailing eosL (l ++ [x]) = none) := by
  induction eosL with
  | nil => intro l x _; exact Or.inl rfl
  | cons e rest ih =>
    intro l x hclean
    have hrest : ∀ a ∈ l, rest.contains a = false := by
      intro a ha
      have h' := hclean a ha
      rw [List.contains_cons, Bool.or_eq_false_iff] at h'
      exact h'.2
    by_cases hx : x = e
    · have hstep : stripTrailing (e :: rest) (l ++ [x]) = stripTrailing rest l := by
        simp only [stripTrailing, List.getLast?_concat]
        rw [if_pos hx, List.dropLast_concat]
      rw [hstep]
      by_cases hl : l = []
      · subst hl
        cases rest with
        | nil => exact Or.inr (Or.inl rfl)
        | cons r rs => exact Or.inr (Or.inr ⟨rfl, rfl⟩)
      · obtain ⟨a, ha⟩ := Option.isSome_iff_exists.mp
          (List.getLast?_isSome.mpr hl)
        have hamem : a ∈ l := by
          obtain ⟨ys, hys⟩ := List.getLast?_eq_some_iff.mp ha
          rw [hys]
          simp
        exact Or.inr (Or.inl (stripTrailing_of_last_not_eos rest l a ha (hrest a hamem)))
    · have hstep : stripTrailing (e :: rest) (l ++ [x]) =
          stripTrailing rest (l ++ [x]) := by
        simp only [stripTrailing, List.getLast?_concat]
        rw [if_neg hx]
      rw [hstep]
      rcases ih l x hrest with h' | h' | h'
      · exact Or.inl h'
      · exact Or.inr (Or.inl h')
      · exact Or.inr (Or.inr h')

/-! Unfolding lemmas for one iteration of the decode loop. -/

/-- One iteration ending in the stripping-loop `IndexError`. -/
theorem runLoop_succ_crash (env : DecodeEnv) (ml pl fuel : Nat) (seq : List Nat)
    (unf : Bool) (h : emitResponse env pl (seq ++ [selectToken env seq]) = none) :
    runLoop env ml pl (fuel + 1) seq unf =
      ⟨[], seq ++ [selectToken env seq], 1, .crashed⟩ := by
  simp only [runLoop, h]

/-- One iteration that yields and then takes the `break` of line 170. -/
theorem runLoop_succ_stop (env : DecodeEnv) (ml pl fuel : Nat) (seq : List Nat)
    (unf : Bool) (resp : String)
    (hresp : emitResponse env pl (seq ++ [selectToken env seq]) = some resp)
    (hbr : (!(unf && !(env.eos_token_id.contains (selectToken env seq))) ||
        stoppingCriteria env ml (seq ++ [selectToken env seq])) = true) :
    runLoop env ml pl (fuel + 1) seq unf =
      ⟨[resp], seq ++ [selectToken env seq], 1, .stopped⟩ := by
  simp only [runLoop, hresp, hbr, if_true]

/-- One iteration that yields and continues into the next iteration. -/
theorem runLoop_succ_cont (env : DecodeEnv) (ml pl fuel : Nat) (seq : List Nat)
    (unf : Bool) (resp : String)
    (hresp : emitResponse env pl (seq ++ [selectToken env seq]) = some resp)
    (hbr : (!(unf && !(env.eos_token_id.contains (selectToken env seq))) ||
        stoppingCriteria env ml (seq ++ [selectToken env seq])) = false) :
    runLoop env ml pl (fuel + 1) seq unf =
      ⟨resp :: (runLoop env ml pl fuel (seq ++ [selectToken env seq])
          (unf && !(env.eos_token_id.contains (selectToken env seq)))).emissions,
        (runLoop env ml pl fuel (seq ++ [selectToken env seq])
          (unf && !(env.eos_token_id.contains (selectToken env seq)))).seq,
        (runLoop env ml pl fuel (seq ++ [selectToken env seq])
          (unf && !(env.eos_token_id.contains (selectToken env seq)))).steps + 1,
        (runLoop env ml pl fuel (seq ++ [selectToken env seq])
          (unf && !(env.eos_token_id.contains (selectToken env seq)))).status⟩ := by
  simp only [runLoop, hresp, hbr, Bool.false_eq_true, if_false]

/-- Dropping the prompt of an extended sequence drops it from the prefix:
the sliced suffix of the extended sequence is the old suffix plus the new
token. -/
theorem drop_append_singleton (pl : Nat) (seq : List Nat) (t : Nat)
    (hp : pl ≤ seq.length) :
    (seq ++ [t]).drop pl = seq.drop pl ++ [t] := by
  rw [List.drop_append_eq_append_drop, Nat.sub_eq_zero_of_le hp, List.drop_zero]

/-- Whatever the fuel, the first emission of a (sub-)run launched from a
sequence whose generated part contains no eos id — the shape of every
reachable loop state — either does not exist or decodes a token list
extending that generated part. -/
theorem runLoop_head_emission (env : DecodeEnv) (ml pl : Nat)
    (fuel : Nat) (seq : List Nat) (unf : Bool) (hp : pl ≤ seq.length)
    (hclean : ∀ a ∈ seq.drop pl, env.eos_token_id.contains a = false) :
    (runLoop env ml pl fuel seq unf).emissions.head? = none ∨
    ∃ r, (runLoop env ml pl fuel seq unf).emissions.head? = some (env.decode r) ∧
      seq.drop pl <+: r := by
  cases fuel with
  | zero => exact Or.inl rfl
  | succ n =>
    have hdrop := drop_append_singleton pl seq (selectToken env seq) hp
    rcases stripTrailing_clean_concat env.eos_token_id (seq.drop pl)
        (selectToken env seq) hclean with hs | hs | hs
    · have hresp : emitResponse env pl (seq ++ [selectToken env seq]) =
          some (env.decode (seq.drop pl ++ [selectToken env seq])) := by
        rw [emitResponse, hdrop, hs]; rfl
      cases hbr : (!(unf && !(env.eos_token_id.contains (selectToken env seq))) ||
          stoppingCriteria env ml (seq ++ [selectToken env seq])) with
      | true =>
        rw [runLoop_succ_stop env ml pl n seq unf _ hresp hbr]
        exact Or.inr ⟨_, rfl, ⟨[selectToken env seq], rfl⟩⟩
      | false =>
        rw [runLoop_succ_cont env ml pl n seq unf _ hresp hbr]
        exact Or.inr ⟨_, rfl, ⟨[selectToken env seq], rfl⟩⟩
    · have hresp : emitResponse env pl (seq ++ [selectToken env seq]) =
          some (env.decode (seq.drop pl)) := by
        rw [emitResponse, hdrop, hs]; rfl
      cases hbr : (!(unf && !(env.eos_token_id.contains (selectToken env seq))) ||
          stoppingCriteria env ml (seq ++ [selectToken env seq])) with
      | true =>
        rw [runLoop_succ_stop env ml pl n seq unf _ hresp hbr]
        exact Or.inr ⟨_, rfl, List.prefix_refl _⟩
      | false =>
        rw [runLoop_succ_cont env ml pl n seq unf _ hresp hbr]
        exact Or.inr ⟨_, rfl, List.prefix_refl _⟩
    · have hresp : emitResponse env pl (seq ++ [selectToken env seq]) = none := by
        rw [emitResponse, hdrop, hs.2]; rfl
      rw [runLoop_succ_crash env ml pl n seq unf hresp]
      exact Or.inl rfl

/-- Chain property of the emissions of any (sub-)run launched from a
state whose generated part is eos-free, for tokenizers whose `decode`
maps token-list extension to text extension. -/
theorem runLoop_chain (env : DecodeEnv) (ml pl : Nat)
    (hdec : ∀ l1 l2 : List Nat, l1 <+: l2 →
      ∃ t : String, env.decode l2 = env.decode l1 ++ t) :
    ∀ (fuel : Nat) (seq : List Nat) (unf : Bool), pl ≤ seq.length →
      (∀ a ∈ seq.drop pl, env.eos_token_id.contains a = false) →
      List.Chain' (fun a b => (∃ t : String, b = a ++ t) ∧ a.length ≤ b.length)
        (runLoop env ml pl fuel seq unf).emissions := by
  intro fuel
  induction fuel with
  | zero => intro seq unf _ _; exact List.chain'_nil
  | succ n ih =>
    intro seq unf hp hclean
    cases hresp : emitResponse env pl (seq ++ [selectToken env seq]) with
    | none =>
      rw [runLoop_succ_crash env ml pl n seq unf hresp]
      exact List.chain'_nil
    | some resp =>
      cases hbr : (!(unf && !(env.eos_token_id.contains (selectToken env seq))) ||
          stoppingCriteria env ml (seq ++ [selectToken env seq])) with
      | true =>
        rw [runLoop_succ_stop env ml pl n seq unf resp hresp hbr]
        exact List.chain'_singleton _
      | false =>
        rw [Bool.or_eq_false_iff] at hbr
        have hu2 : (unf && !(env.eos_token_id.contains (selectToken env seq))) = true := by
          have := hbr.1
          cases h' : (unf && !(env.eos_token_id.contains (selectToken env seq))) with
          | true => rfl
          | false => rw [h'] at this; simp at this
        have hcont : env.eos_token_id.contains (selectToken env seq) = false := by
          rcases Bool.and_eq_true_iff.mp hu2 with ⟨_, h2⟩
          cases h' : env.eos_token_id.contains (selectToken env seq) with
          | false => rfl
          | true => rw [h'] at h2; simp at h2
        have hp2 : pl ≤ (seq ++ [selectToken env seq]).length := by
          rw [List.length_append]; omega
        have hdropa := drop_append_singleton pl seq (selectToken env seq) hp
        have hclean2 : ∀ a ∈ (seq ++ [selectToken env seq]).drop pl,
            env.eos_token_id.contains a = false := by
          intro a ha
          rw [hdropa] at ha
          rcases List.mem_append.mp ha with h' | h'
          · exact hclean a h'
          · rw [List.mem_singleton.mp h']; exact hcont
        have hstrip : stripTrailing env.eos_token_id
            ((seq ++ [selectToken env seq]).drop pl) =
            some ((seq ++ [selectToken env seq]).drop pl) := by
          rw [hdropa]
          exact stripTrailing_of_last_not_eos _ _ _ (List.getLast?_concat _) hcont
        have hresp' : resp = env.decode ((seq ++ [selectToken env seq]).drop pl) := by
          rw [emitResponse, hstrip] at hresp
          exact (Option.some.inj hresp).symm
        have hbr' : (!(unf && !(env.eos_token_id.contains (selectToken env seq))) ||
            stoppingCriteria env ml (seq ++ [selectToken env seq])) = false := by
          rw [Bool.or_eq_false_iff]; exact hbr
        rw [runLoop_succ_cont env ml pl n seq unf resp hresp hbr']
        refine List.chain'_cons'.mpr ⟨?_, ih (seq ++ [selectToken env seq]) _ hp2 hclean2⟩
        intro y hy
        rcases runLoop_head_emission env ml pl n (seq ++ [selectToken env seq])
            (unf && !(env.eos_token_id.contains (selectToken env seq))) hp2 hclean2 with
          hnone | ⟨r, hr, hpre⟩
        · rw [hnone] at hy
          cases hy
        · rw [hr] at hy
          have hy' : y = env.decode r := by
            rw [Option.mem_def] at hy
            exact (Option.some.inj hy).symm
          obtain ⟨tl, htl⟩ := hdec ((seq ++ [selectToken env seq]).drop pl) r hpre
          rw [hy', hresp']
          exact ⟨⟨tl, htl⟩, by rw [htl, String.length_append]; omega⟩

/-- Termination of the decode loop within the fuel supplied by the
`MaxLengthCriteria` bound, from any loop state. -/
theorem runLoop_terminates (env : DecodeEnv) (ml pl : Nat) :
    ∀ (fuel : Nat) (seq : List Nat) (unf : Bool), 1 ≤ fuel →
      ml ≤ seq.length + fuel →
      (runLoop env ml pl fuel seq unf).status ≠ .fuelOut ∧
      (runLoop env ml pl fuel seq unf).steps ≤ max (ml - seq.length) 1 := by
  intro fuel
  induction fuel with
  | zero => intro seq unf h1 _; omega
  | succ n ih =>
    intro seq unf _ hml
    cases hresp : emitResponse env pl (seq ++ [selectToken env seq]) with
    | none =>
      rw [runLoop_succ_crash env ml pl n seq unf hresp]
      exact ⟨fun h => RunStatus.noConfusion h, le_max_right _ _⟩
    | some resp =>
      cases hbr : (!(unf && !(env.eos_token_id.contains (selectToken env seq))) ||
          stoppingCriteria env ml (seq ++ [selectToken env seq])) with
      | true =>
        rw [runLoop_succ_stop env ml pl n seq unf resp hresp hbr]
        exact ⟨fun h => RunStatus.noConfusion h, le_max_right _ _⟩
      | false =>
        have hlen : seq.length + 1 < ml := by
          rw [Bool.or_eq_false_iff] at hbr
          have h2 := hbr.2
          rw [stoppingCriteria, Bool.or_eq_false_iff] at h2
          have h3 := of_decide_eq_false h2.2
          rw [List.length_append] at h3
          simp only [List.length_cons, List.length_nil] at h3
          omega
        have hn1 : 1 ≤ n := by omega
        have hml2 : ml ≤ (seq ++ [selectToken env seq]).length + n := by
          rw [List.length_append]
          simp only [List.length_cons, List.length_nil]
          omega
        obtain ⟨hst, hsteps⟩ := ih (seq ++ [selectToken env seq])
          (unf && !(env.eos_token_id.contains (selectToken env seq))) hn1 hml2
        rw [runLoop_succ_cont env ml pl n seq unf resp hresp hbr]
        refine ⟨hst, ?_⟩
        show (runLoop env ml pl n (seq ++ [selectToken env seq])
            (unf && !(env.eos_token_id.contains (selectToken env seq)))).steps + 1 ≤
          max (ml - seq.length) 1
        rw [List.length_append] at hsteps
        simp only [List.length_cons, List.length_nil] at hsteps
        have hb1 : max (ml - (seq.length + 1)) 1 = ml - (seq.length + 1) :=
          Nat.max_eq_left (by omega)
        have hb2 : max (ml - seq.length) 1 = ml - seq.length :=
          Nat.max_eq_left (by omega)
        rw [hb1] at hsteps
        rw [hb2]
        omega

/-- Greedy runs ignore the sampling oracle: two environments that agree on
everything except the `torch.multinomial` randomness drive the loop
identically when `do_sample` is false, from any loop state. -/
theorem runLoop_congr (e1 e2 : DecodeEnv) (ml pl : Nat)
    (hm : e1.model = e2.model) (hd : e1.decode = e2.decode)
    (he : e1.eos_token_id = e2.eos_token_id) (hu : e1.customStop = e2.customStop)
    (h1 : e1.do_sample = false) (h2 : e2.do_sample = false) :
    ∀ (fuel : Nat) (seq : List Nat) (unf : Bool),
      runLoop e1 ml pl fuel seq unf = runLoop e2 ml pl fuel seq unf := by
  have hsel : ∀ s, selectToken e1 s = selectToken e2 s := by
    intro s; simp [selectToken, h1, h2, hm]
  have hemit : ∀ p s, emitResponse e1 p s = emitResponse e2 p s := by
    intro p s; simp [emitResponse, hd, he]
  have hstop : ∀ s, stoppingCriteria e1 ml s = stoppingCriteria e2 ml s := by
    intro s; simp [stoppingCriteria, hu]
  intro fuel
  induction fuel with
  | zero => intro seq unf; rfl
  | succ n ih =>
    intro seq unf
    simp only [runLoop, hsel, hemit, he, hstop, ih]

/-- Accumulator form of the history fold: with every role valid, the loop
of `combine_history` produces the left fold of the templated blocks. -/
theorem combineGo_ok (msgs : List ChatMessage) :
    ∀ acc : String, (∀ msg ∈ msgs, msg.role = "user" ∨ msg.role = "robot") →
      combineGo msgs acc =
        .ok (msgs.foldl (fun a m => a ++ messageBlock m) acc) := by
  induction msgs with
  | nil => intro acc _; rfl
  | cons m rest ih =>
    intro acc hgood
    have hrest : ∀ msg ∈ rest, msg.role = "user" ∨ msg.role = "robot" :=
      fun msg hm => hgood msg (List.mem_cons_of_mem _ hm)
    rcases hgood m (List.mem_cons_self _ _) with hr | hr
    · rw [List.foldl_cons]
      have hblock : messageBlock m = user_prompt m.content := by
        rw [messageBlock, if_pos hr]
      rw [combineGo, if_pos hr, hblock]
      exact ih _ hrest
    · rw [List.foldl_cons]
      have hru : ¬ m.role = "user" := by rw [hr]; decide
      have hblock : messageBlock m = robot_prompt m.content := by
        rw [messageBlock, if_neg hru]
      rw [combineGo, if_neg hru, if_pos hr, hblock]
      exact ih _ hrest

/-- With any invalid role present, the history fold raises. -/
theorem combineGo_err (msgs : List ChatMessage) :
    ∀ acc : String, (∃ msg ∈ msgs, msg.role ≠ "user" ∧ msg.role ≠ "robot") →
      combineGo msgs acc = .error .runtimeError := by
  induction msgs with
  | nil => intro acc hbad; obtain ⟨_, hm, _⟩ := hbad; cases hm
  | cons m rest ih =>
    intro acc hbad
    by_cases hu : m.role = "user"
    · rw [combineGo, if_pos hu]
      apply ih
      obtain ⟨msg, hm, hb⟩ := hbad
      rcases List.mem_cons.mp hm with h' | h'
      · exact absurd (h' ▸ hu) hb.1
      · exact ⟨msg, h', hb⟩
    · by_cases hr : m.role = "robot"
      · rw [combineGo, if_neg hu, if_pos hr]
        apply ih
        obtain ⟨msg, hm, hb⟩ := hbad
        rcases List.mem_cons.mp hm with h' | h'
        · exact absurd (h' ▸ hr) hb.2
        · exact ⟨msg, h', hb⟩
      · rw [combineGo, if_neg hu, if_neg hr]

/-- Unfolding of `combine_history` at `with_history = true`. -/
theorem combine_history_true (messages : List ChatMessage) (prompt meta : String) :
    combine_history messages prompt meta true =
      match combineGo messages (system_header meta) with
      | .error e => .error e
      | .ok t => .ok (t ++ cur_query_prompt prompt) := rfl

/-! Claim theorems. -/

/-- C1: whenever `max_new_tokens` is provided, the resolution of lines
81-103 sets `max_length = max_new_tokens + prompt_length`; this derived
value overrides any `max_length` explicitly passed through kwargs, with
only the non-fatal `logger.warn` diagnostic in that case; and the decode
loop then runs against exactly this derived cap. -/
theorem c1_max_new_tokens_precedence (env : DecodeEnv) (kwargsML cfgML0 : Option Nat)
    (m : Nat) (prompt : List Nat) (fuel : Nat) :
    (resolveMaxLength kwargsML cfgML0 (some m) prompt.length).max_length =
      some (m + prompt.length) ∧
    (kwargsML ≠ none →
      (resolveMaxLength kwargsML cfgML0 (some m) prompt.length).bothSetDiag = true) ∧
    generate_interactive env kwargsML cfgML0 (some m) prompt fuel =
      .ok (runLoop env (m + prompt.length) prompt.length fuel prompt true) := by
  cases kwargsML with
  | none => exact ⟨rfl, fun h => absurd rfl h, rfl⟩
  | some v => exact ⟨rfl, fun _ => rfl, rfl⟩

/-- C1 (witness): concrete instance with both `max_length = 99` in kwargs
and `max_new_tokens = 5`; the resolved cap is `5 + 3` and the diagnostic
fires. -/
theorem c1_max_new_tokens_precedence_witness :
    (some 99 : Option Nat) ≠ none ∧
    ((resolveMaxLength (some 99) (some 7) (some 5) ([0, 0, 0] : List Nat).length).max_length =
        some (5 + ([0, 0, 0] : List Nat).length) ∧
      (resolveMaxLength (some 99) (some 7) (some 5) ([0, 0, 0] : List Nat).length).bothSetDiag =
        true ∧
      generate_interactive envC1w (some 99) (some 7) (some 5) [0, 0, 0] 4 =
        .ok (runLoop envC1w (5 + ([0, 0, 0] : List Nat).length)
          ([0, 0, 0] : List Nat).length 4 [0, 0, 0] true)) := by
  have h := c1_max_new_tokens_precedence envC1w (some 99) (some 7) 5 [0, 0, 0] 4
  exact ⟨by decide, h.1, h.2.1 (by decide), h.2.2⟩

/-- C2: evaluation of the emission operation at the failing input.  With
`eos_token_id = [2, 92542]` and the first generated token `2`, the
stripping loop of lines 161-163 empties the suffix at the first id and
then reads `output_token_ids[-1]` of the empty list — an `IndexError`
(`none` here) — so the step yields nothing and the run aborts, whereas
the spec's single-trailing-eos strip (§4.4 step 6) is defined there and
would emit the decode of the empty suffix. -/
theorem c2_strip_indexerror_eval :
    (run envC2 10 [7] 3).status = .crashed ∧
    (run envC2 10 [7] 3).emissions = [] ∧
    stripTrailing envC2.eos_token_id [2] = none ∧
    stripOneTrailingEos envC2.eos_token_id [2] = [] := by decide

/-- C3 (counterexample): the token selected at step 1 is a configured eos
id, yet the run does not transition to `STOPPED` — the emission
computation raises first and the run aborts after that single step. -/
theorem c3_counterexample_crash_not_stopped :
    envC3x.eos_token_id.contains (selectToken envC3x [0]) = true ∧
    (run envC3x 100 [0] 5).status ≠ .stopped ∧
    (run envC3x 100 [0] 5).steps = 1 := by decide

/-- C3 (amended): from any loop state, if the selected token is a member
of the eos id set or the stopping criteria fire on the updated sequence —
the sources combining by logical OR — the run performs no further step
beyond this one; it transitions to `STOPPED` provided the step's emission
computation does not raise, and otherwise aborts at this same step. -/
theorem c3_stop_sources_or (env : DecodeEnv) (ml pl fuel : Nat) (seq : List Nat)
    (unf : Bool)
    (h : env.eos_token_id.contains (selectToken env seq) = true ∨
      stoppingCriteria env ml (seq ++ [selectToken env seq]) = true) :
    (runLoop env ml pl (fuel + 1) seq unf).steps = 1 ∧
    (runLoop env ml pl (fuel + 1) seq unf).status ≠ .fuelOut ∧
    (emitResponse env pl (seq ++ [selectToken env seq]) ≠ none →
      (runLoop env ml pl (fuel + 1) seq unf).status = .stopped) := by
  have hbr : (!(unf && !(env.eos_token_id.contains (selectToken env seq))) ||
      stoppingCriteria env ml (seq ++ [selectToken env seq])) = true := by
    rcases h with h | h
    · rw [h]; simp
    · rw [h]; simp
  cases hresp : emitResponse env pl (seq ++ [selectToken env seq]) with
  | none =>
    rw [runLoop_succ_crash env ml pl fuel seq unf hresp]
    exact ⟨rfl, fun h' => RunStatus.noConfusion h', fun hc => absurd rfl hc⟩
  | some resp =>
    rw [runLoop_succ_stop env ml pl fuel seq unf resp hresp hbr]
    exact ⟨rfl, fun h' => RunStatus.noConfusion h', fun _ => rfl⟩

/-- C3 (witness): a run whose first greedy token is the sole eos id stops
at that step with exactly one iteration. -/
theorem c3_stop_sources_or_witness :
    (envC3w.eos_token_id.contains (selectToken envC3w [9]) = true ∨
      stoppingCriteria envC3w 100 ([9] ++ [selectToken envC3w [9]]) = true) ∧
    ((runLoop envC3w 100 1 3 [9] true).steps = 1 ∧
      (runLoop envC3w 100 1 3 [9] true).status ≠ .fuelOut ∧
      (emitResponse envC3w 1 ([9] ++ [selectToken envC3w [9]]) ≠ none →
        (runLoop envC3w 100 1 3 [9] true).status = .stopped)) :=
  ⟨Or.inl (by decide),
    c3_stop_sources_or envC3w 100 1 2 [9] true (Or.inl (by decide))⟩

/-- C4 (counterexample): with `max_length = 1` and a two-token prompt the
run still executes one decode step, exceeding the claimed bound of
`max_length - prompt_length` steps. -/
theorem c4_counterexample_prompt_exceeds_cap :
    (run envC4x 1 [0, 0] 5).status = .stopped ∧
    ¬ ((run envC4x 1 [0, 0] 5).steps ≤ 1 - ([0, 0] : List Nat).length) := by decide

/-- C4 (amended): every run given fuel `max (max_length - prompt_length) 1`
terminates — it never runs out of fuel — and executes at most
`max (max_length - prompt_length) 1` decode steps, regardless of which
tokens are sampled and of the external stopping predicate; the extra
`max … 1` accounts for the do-while shape of the loop, which always runs
one step even when `prompt_length ≥ max_length`. -/
theorem c4_terminates_within_bound (env : DecodeEnv) (ml : Nat) (prompt : List Nat)
    (fuel : Nat) (hf : max (ml - prompt.length) 1 ≤ fuel) :
    (run env ml prompt fuel).status ≠ .fuelOut ∧
    (run env ml prompt fuel).steps ≤ max (ml - prompt.length) 1 := by
  have h1 : ml - prompt.length ≤ fuel := le_trans (le_max_left _ _) hf
  have h2 : 1 ≤ fuel := le_trans (le_max_right _ _) hf
  exact runLoop_terminates env ml prompt.length fuel prompt true h2 (by omega)

/-- C4 (witness): a run capped at `max_length = 10` from a one-token
prompt terminates within `max (10 - 1) 1 = 9` steps given fuel 20. -/
theorem c4_terminates_within_bound_witness :
    max (10 - ([7] : List Nat).length) 1 ≤ 20 ∧
    ((run envC4w 10 [7] 20).status ≠ .fuelOut ∧
      (run envC4w 10 [7] 20).steps ≤ max (10 - ([7] : List Nat).length) 1) :=
  ⟨by decide, c4_terminates_within_bound envC4w 10 [7] 20 (by decide)⟩

/-- C5 (counterexample): with neither `max_length` nor `max_new_tokens`
provided, the run does fail before the loop, but with the `TypeError` of
the `int >= None` comparison at line 105, not with the spec's
`ConfigurationError` — the source defines no such error. -/
theorem c5_counterexample_type_error_not_configuration_error :
    generate_interactive envC5x none none none [0, 1] 3 = .error .typeError ∧
    generate_interactive envC5x none none none [0, 1] 3 ≠ .error .configurationError := by
  refine ⟨rfl, ?_⟩
  intro h
  exact PyExc.noConfusion (Except.error.inj h)

/-- C5 (amended): for every environment and prompt, when neither
`max_length` nor `max_new_tokens` is provided the run fails — before any
model forward computation, since the decode loop is never entered — by
the `TypeError` raised when the prompt length is compared against the
absent `max_length` at line 105. -/
theorem c5_fails_before_forward (env : DecodeEnv) (prompt : List Nat) (fuel : Nat) :
    generate_interactive env none none none prompt fuel = .error .typeError := rfl

/-- C6: when `do_sample` is false, the token selected at lines 148-152 is
an index of the transformed score vector attaining the maximal score, and
it is the least such index — ties break toward the lowest token id, per
the documented first-occurrence semantics of `torch.argmax` (softmax being
strictly monotone, the arg-max over the probabilities is the arg-max over
the scores; see `argmaxIdx_map_strictMono`). -/
theorem c6_greedy_argmax_lowest_index (env : DecodeEnv) (seq : List Nat)
    (hds : env.do_sample = false) (hne : env.model seq ≠ []) :
    ∃ hlt : selectToken env seq < (env.model seq).length,
      (∀ j (hj : j < (env.model seq).length),
        (env.model seq).get ⟨j, hj⟩ ≤ (env.model seq).get ⟨selectToken env seq, hlt⟩) ∧
      (∀ j (hj : j < (env.model seq).length),
        (env.model seq).get ⟨selectToken env seq, hlt⟩ ≤ (env.model seq).get ⟨j, hj⟩ →
          selectToken env seq ≤ j) := by
  have hsel : selectToken env seq = argmaxIdx (env.model seq) := by
    simp [selectToken, hds]
  rw [hsel]
  exact argmaxIdx_first_max (env.model seq) hne

/-- C6 (witness): on the tied score vector `[1, 3, 3, 0]` the selection
returns index 1, the lower of the two maximal indices. -/
theorem c6_greedy_argmax_lowest_index_witness :
    envC6w.do_sample = false ∧ envC6w.model [] ≠ [] ∧ selectToken envC6w [] = 1 ∧
    (∃ hlt : selectToken envC6w [] < (envC6w.model []).length,
      (∀ j (hj : j < (envC6w.model []).length),
        (envC6w.model []).get ⟨j, hj⟩ ≤ (envC6w.model []).get ⟨selectToken envC6w [], hlt⟩) ∧
      (∀ j (hj : j < (envC6w.model []).length),
        (envC6w.model []).get ⟨selectToken envC6w [], hlt⟩ ≤ (envC6w.model []).get ⟨j, hj⟩ →
          selectToken envC6w [] ≤ j)) :=
  ⟨rfl, by decide, by decide,
    c6_greedy_argmax_lowest_index envC6w [] rfl (by decide)⟩

/-- C7: two greedy runs (`do_sample = false`) from the same prompt, the
same resolved cap and the same model state — environments agreeing on the
model, decode, eos ids and external stopping predicate, the sampling
oracle left free — produce identical results: same token sequence, same
emissions, same step count, same exit status. -/
theorem c7_greedy_deterministic (e1 e2 : DecodeEnv) (ml : Nat) (prompt : List Nat)
    (fuel : Nat) (hm : e1.model = e2.model) (hd : e1.decode = e2.decode)
    (he : e1.eos_token_id = e2.eos_token_id) (hu : e1.customStop = e2.customStop)
    (h1 : e1.do_sample = false) (h2 : e2.do_sample = false) :
    run e1 ml prompt fuel = run e2 ml prompt fuel :=
  runLoop_congr e1 e2 ml prompt.length hm hd he hu h1 h2 fuel prompt true

/-- C7 (witness): two concrete environments differing only in the
sampling oracle produce identical runs. -/
theorem c7_greedy_deterministic_witness :
    envC7a.model = envC7b.model ∧ envC7a.decode = envC7b.decode ∧
    envC7a.eos_token_id = envC7b.eos_token_id ∧ envC7a.customStop = envC7b.customStop ∧
    envC7a.do_sample = false ∧ envC7b.do_sample = false ∧
    run envC7a 5 [0] 10 = run envC7b 5 [0] 10 :=
  ⟨rfl, rfl, rfl, rfl, rfl, rfl,
    c7_greedy_deterministic envC7a envC7b 5 [0] 10 rfl rfl rfl rfl rfl rfl⟩

/-- C8 (counterexample): with a tokenizer whose decode is not
extension-monotone, a run's successive emissions shrink: the claimed
non-decreasing decoded length fails on the emissions `["aa", "b"]`. -/
theorem c8_counterexample_shrinking_decode :
    (run envC8x 3 [9] 5).emissions = ["aa", "b"] ∧
    ¬ List.Chain' (fun a b => a.length ≤ b.length) (run envC8x 3 [9] 5).emissions := by
  have h : (run envC8x 3 [9] 5).emissions = ["aa", "b"] := by decide
  refine ⟨h, ?_⟩
  rw [h]
  intro hc
  have h1 := (List.chain'_cons.mp hc).1
  have h2 : ¬ (("aa" : String).length ≤ ("b" : String).length) := by decide
  exact h2 h1

/-- C8 (amended): within any single run, whenever the tokenizer's decode
maps token-list extensions to text extensions, each emission extends (or
equals) the previous one and the decoded lengths are non-decreasing until
the run stops; without that tokenizer property only the underlying
token-list chain is guaranteed. -/
theorem c8_emission_chain (env : DecodeEnv) (ml : Nat) (prompt : List Nat)
    (fuel : Nat)
    (hdec : ∀ l1 l2 : List Nat, l1 <+: l2 →
      ∃ t : String, env.decode l2 = env.decode l1 ++ t) :
    List.Chain' (fun a b => (∃ t : String, b = a ++ t) ∧ a.length ≤ b.length)
      (run env ml prompt fuel).emissions := by
  apply runLoop_chain env ml prompt.length hdec fuel prompt true le_rfl
  rw [List.drop_length]
  intro a ha
  cases ha

/-- C8 (witness): with the constant decode — trivially
extension-monotone — a concrete two-step run has chained emissions. -/
theorem c8_emission_chain_witness :
    (∀ l1 l2 : List Nat, l1 <+: l2 →
      ∃ t : String, envC8w.decode l2 = envC8w.decode l1 ++ t) ∧
    List.Chain' (fun a b => (∃ t : String, b = a ++ t) ∧ a.length ≤ b.length)
      (run envC8w 3 [9] 5).emissions :=
  ⟨fun _ _ _ => ⟨"", rfl⟩,
    c8_emission_chain envC8w 3 [9] 5 (fun _ _ _ => ⟨"", rfl⟩)⟩

/-- C9 (counterexample): a run whose first greedy token is the first of
two eos ids performs its one decode step but yields no emission — the
emission computation raises before the yield. -/
theorem c9_counterexample_crash_no_emission :
    (run envC9x 50 [1, 1] 4).steps = 1 ∧
    (run envC9x 50 [1, 1] 4).emissions = [] := by decide

/-- C9 (amended): every run performs at least one decode step before any
stop condition is consulted — even when `prompt_length ≥ max_length` or
the external predicate is already true on the prompt — and that first
step also yields an emission provided its selected token is not an eos id
(which shields the stripping loop from its `IndexError`). -/
theorem c9_first_step_before_stop_check (env : DecodeEnv) (ml : Nat)
    (prompt : List Nat) (fuel : Nat)
    (h : env.eos_token_id.contains (selectToken env prompt) = false) :
    1 ≤ (run env ml prompt (fuel + 1)).steps ∧
    (run env ml prompt (fuel + 1)).emissions ≠ [] := by
  have hdrop : (prompt ++ [selectToken env prompt]).drop prompt.length =
      [selectToken env prompt] := List.drop_left _ _
  have hstrip : stripTrailing env.eos_token_id [selectToken env prompt] =
      some [selectToken env prompt] :=
    stripTrailing_of_last_not_eos _ _ _ (List.getLast?_concat []) h
  have hresp : emitResponse env prompt.length (prompt ++ [selectToken env prompt]) =
      some (env.decode [selectToken env prompt]) := by
    rw [emitResponse, hdrop, hstrip]; rfl
  rw [run]
  cases hbr : (!(true && !(env.eos_token_id.contains (selectToken env prompt))) ||
      stoppingCriteria env ml (prompt ++ [selectToken env prompt])) with
  | true =>
    rw [runLoop_succ_stop env ml prompt.length fuel prompt true _ hresp hbr]
    exact ⟨le_refl 1, List.cons_ne_nil _ _⟩
  | false =>
    rw [runLoop_succ_cont env ml prompt.length fuel prompt true _ hresp hbr]
    exact ⟨Nat.succ_le_succ (Nat.zero_le _), List.cons_ne_nil _ _⟩

/-- C9 (witness): even with `max_length = 1` already exceeded by the
two-token prompt and an external predicate that is constantly true, the
first step runs and yields. -/
theorem c9_first_step_before_stop_check_witness :
    envC9w.eos_token_id.contains (selectToken envC9w [1, 1]) = false ∧
    1 < ([1, 1] : List Nat).length ∧
    (1 ≤ (run envC9w 1 [1, 1] 1).steps ∧ (run envC9w 1 [1, 1] 1).emissions ≠ []) :=
  ⟨by decide, by decide,
    c9_first_step_before_stop_check envC9w 1 [1, 1] 0 (by decide)⟩

/-- C10: `combine_history` raises `RuntimeError` exactly on histories
containing a message whose role is neither "user" nor "robot"; on
histories of only those two roles it totalizes to the system header,
followed by one templated block per message in order (the left fold of
lines 242-250), followed by the current-query template. -/
theorem c10_combine_history_total_or_raise (messages : List ChatMessage)
    (prompt meta : String) :
    ((∀ msg ∈ messages, msg.role = "user" ∨ msg.role = "robot") →
      combine_history messages prompt meta true =
        .ok (messages.foldl (fun a m => a ++ messageBlock m) (system_header meta) ++
          cur_query_prompt prompt)) ∧
    ((∃ msg ∈ messages, msg.role ≠ "user" ∧ msg.role ≠ "robot") →
      combine_history messages prompt meta true = .error .runtimeError) := by
  constructor
  · intro hgood
    rw [combine_history_true, combineGo_ok messages (system_header meta) hgood]
  · intro hbad
    rw [combine_history_true, combineGo_err messages (system_header meta) hbad]

/-- C10 (witness): a valid two-message history assembles to the templated
concatenation; a history with role "alien" raises. -/
theorem c10_combine_history_total_or_raise_witness :
    ((∀ msg ∈ ([⟨"user", "hi"⟩, ⟨"robot", "yo"⟩] : List ChatMessage),
        msg.role = "user" ∨ msg.role = "robot") ∧
      combine_history [⟨"user", "hi"⟩, ⟨"robot", "yo"⟩] "q" "sys" true =
        .ok (([⟨"user", "hi"⟩, ⟨"robot", "yo"⟩] : List ChatMessage).foldl
          (fun a m => a ++ messageBlock m) (system_header "sys") ++
          cur_query_prompt "q")) ∧
    ((∃ msg ∈ ([⟨"alien", "x"⟩] : List ChatMessage),
        msg.role ≠ "user" ∧ msg.role ≠ "robot") ∧
      combine_history [⟨"alien", "x"⟩] "q" "sys" true = .error .runtimeError) :=
  ⟨⟨by decide, (c10_combine_history_total_or_raise _ "q" "sys").1 (by decide)⟩,
    ⟨by decide, (c10_combine_history_total_or_raise _ "q" "sys").2 (by decide)⟩⟩

end StreamerSales
